import Mathlib

/-!
Shallow embedding of `src/main.cpp` (realsense-color-to-h264).

The program's core is `main_loop`: a warm-up stage discarding frames,
a per-frame submit/drain loop over `frames = seconds * framerate`
iterations, an unconditional end-of-stream flush, and the result
`f == frames`.  The camera and the hardware encoder are opaque
collaborators; we model their observable behaviour as an oracle `Env`:
for the `i`-th frame-submit cycle the oracle fixes whether
`hve_send_frame` succeeds, which packets the `hve_receive_packet`
polling loop yields before returning NULL, and the value of the
`failed` flag at that NULL return; the flush drain gets its own packet
list and flag.  The output file is a list of bytes grown by appends,
exactly as `out_file.write` grows the file.
-/

namespace RSH264

/-- Bytes of one compressed packet (`packet->data`, `packet->size`). -/
abbrev Packet := List Nat

/-- Oracle for the observable behaviour of the camera and the encoder
during one call of `main_loop`:
* `sendOk i`    — does the `i`-th `hve_send_frame(he, &frame)` return `HVE_OK`?
* `packets i`   — the packets the drain loop after the `i`-th successful
                  submission receives before `hve_receive_packet` returns NULL;
* `encFail i`   — is `failed != HVE_OK` when that NULL is returned?
* `flushSendOk` — does `hve_send_frame(he, NULL)` return `HVE_OK`?
                  (`main_loop` discards this value);
* `flushPackets`, `flushFail` — the same data for the drain after the
                  NULL (end-of-stream) submission;
* `source i`    — the frame delivered by the `i`-th `wait_for_frames()` call. -/
structure Env where
  sendOk : Nat → Bool
  packets : Nat → List Packet
  encFail : Nat → Bool
  flushSendOk : Bool
  flushPackets : List Packet
  flushFail : Bool
  source : Nat → Nat

/-- `for (auto i = 0; i < 10; ++i) realsense.wait_for_frames();` —
the warm-up loop bound in `main_loop` (the adjacent comment says 30,
the code says 10). -/
def warmupCount : Nat := 10

/-- One drain session, `while((packet = hve_receive_packet(he, &failed)))
{ out_file.write(...); }`: each iteration is one poll; every received
packet's bytes are appended to the file; the loop stops at the NULL
return, whose `failed` flag is reported.  Arguments: packets the session
yields, the final `failed` flag, the file contents so far. -/
def drainLoop : List Packet → Bool → List Nat → List Nat × Bool
  | [], fail, file => (file, fail)
  | p :: rest, fail, file => drainLoop rest fail (file ++ p)

/-- Number of `hve_receive_packet` polls a drain session performs:
one per packet received plus the final poll that observes NULL. -/
def drainPolls : List Packet → Nat
  | [] => 1
  | _ :: rest => 1 + drainPolls rest

/-- Observable outcome of the per-frame `for(f = 0; f < frames; ++f)` loop. -/
structure LoopOut where
  fFinal : Nat
  file : List Nat
  submitted : List Nat
  drained : Nat
  polls : Nat
  deriving DecidableEq, Repr

/-- The per-frame loop of `main_loop`, starting at counter value `f` with
`n` iterations left and file contents `file`.  Each entered iteration
pulls one frame, attempts `hve_send_frame` (breaking on failure), runs a
drain session, and breaks if the session reported `failed != HVE_OK`.
Output fields: final value of `f`, file contents, the frames submitted
(in order, failed attempt included), the number of completed drain
sessions, and the total number of receive polls. -/
def runLoop (env : Env) : Nat → Nat → List Nat → LoopOut
  | f, 0, file => ⟨f, file, [], 0, 0⟩
  | f, n + 1, file =>
    let fr := env.source (warmupCount + f)
    if env.sendOk f then
      let d := drainLoop (env.packets f) (env.encFail f) file
      if d.2 then
        ⟨f, d.1, [fr], 1, drainPolls (env.packets f)⟩
      else
        let r := runLoop env (f + 1) n d.1
        ⟨r.fFinal, r.file, fr :: r.submitted, 1 + r.drained,
          drainPolls (env.packets f) + r.polls⟩
    else
      ⟨f, file, [fr], 0, 0⟩

/-- Observable outcome of one `main_loop` call. -/
structure RunOut where
  warmupPulled : List Nat
  fFinal : Nat
  file : List Nat
  submitted : List Nat
  drained : Nat
  polls : Nat
  eosSent : Bool
  success : Bool
  deriving DecidableEq, Repr

/-- The body of `main_loop` after `frames` has been computed (the spec's
`run(source, encoder, sink, target_count)`). Warm-up pulls, the per-frame
loop (`f < frames` runs `frames.toNat` times, `f` starting at 0), then the
flush: `hve_send_frame(he, NULL)` (result ignored) and a final drain;
returns `f == frames`. -/
def run (env : Env) (frames : Int) : RunOut :=
  let l := runLoop env 0 frames.toNat []
  let _flushSendResult := env.flushSendOk
  let d := drainLoop env.flushPackets env.flushFail l.file
  { warmupPulled := (List.range warmupCount).map env.source
    fFinal := l.fFinal
    file := d.1
    submitted := l.submitted
    drained := l.drained
    polls := l.polls
    eosSent := true
    success := decide ((l.fFinal : Int) = frames) }

/-- Two's-complement wrap of an integer into the 32-bit `int` range,
modelling the C `int` arithmetic of `main_loop`. -/
def int32 (n : Int) : Int := (n + 2 ^ 31) % 2 ^ 32 - 2 ^ 31

/-- `struct input_args` (the `filename` pointer is irrelevant here). -/
structure InputArgs where
  width : Int
  height : Int
  framerate : Int
  seconds : Int

/-- `const int frames = input.seconds * input.framerate;` — a C `int`
multiplication. -/
def framesOf (seconds framerate : Int) : Int := int32 (seconds * framerate)

/-- `main_loop`: computes `frames` from the user input and runs the pump. -/
def main_loop (env : Env) (input : InputArgs) : RunOut :=
  run env (framesOf input.seconds input.framerate)

/-- `process_user_input`: returns `-1` when fewer than five positional
arguments are supplied (`argc < 6`), otherwise `0`. -/
def process_user_input (argc : Nat) : Int :=
  if argc < 6 then -1 else 0

/-- Environment facts `main` branches on: the argument count, whether the
output file opens, and whether `hve_init` succeeds. -/
structure SysEnv where
  argc : Nat
  fileOpens : Bool
  encoderInits : Bool

/-- `main`: exit code 1 on bad arguments, 2 on an unopenable output file,
3 on `hve_init` failure; otherwise it runs `main_loop`, only prints on
success, and returns 0. -/
def main (sys : SysEnv) (env : Env) (input : InputArgs) : Int :=
  if process_user_input sys.argc < 0 then 1
  else if sys.fileOpens = false then 2
  else if sys.encoderInits = false then 3
  else
    let _status := (main_loop env input).success
    0

/-! ### Basic lemmas about the drain session and the per-frame loop -/

/-- A drain session appends exactly its packets' bytes, in order, and
reports the session's `failed` flag. -/
theorem drainLoop_eq (ps : List Packet) (fail : Bool) (file : List Nat) :
    drainLoop ps fail file = (file ++ ps.flatten, fail) := by
  induction ps generalizing file with
  | nil => simp [drainLoop]
  | cons p rest ih => simp [drainLoop, ih]

/-- Each drain session polls once per packet plus once for the final
NULL ("no packet ready") observation. -/
theorem drainPolls_eq (ps : List Packet) : drainPolls ps = ps.length + 1 := by
  induction ps with
  | nil => rfl
  | cons p rest ih => simp [drainPolls, ih]; omega

/-- Unfolding: zero iterations left. -/
theorem runLoop_zero (env : Env) (f : Nat) (file : List Nat) :
    runLoop env f 0 file = ⟨f, file, [], 0, 0⟩ := rfl

/-- Unfolding: the submission of the current frame fails, so the loop
breaks at once (the frame was pulled and the attempt counted). -/
theorem runLoop_succ_sendFail (env : Env) (f n : Nat) (file : List Nat)
    (hs : env.sendOk f = false) :
    runLoop env f (n + 1) file =
      ⟨f, file, [env.source (warmupCount + f)], 0, 0⟩ := by
  simp [runLoop, hs]

/-- Unfolding: the submission succeeds but the drain session ends with
`failed != HVE_OK`: the session's packets are still written, then the
loop breaks. -/
theorem runLoop_succ_encFail (env : Env) (f n : Nat) (file : List Nat)
    (hs : env.sendOk f = true) (he : env.encFail f = true) :
    runLoop env f (n + 1) file =
      ⟨f, file ++ (env.packets f).flatten, [env.source (warmupCount + f)], 1,
        drainPolls (env.packets f)⟩ := by
  simp [runLoop, hs, drainLoop_eq, he]

/-- Unfolding: the submission and the drain session both succeed,
so the loop continues with the next frame counter value. -/
theorem runLoop_succ_ok (env : Env) (f n : Nat) (file : List Nat)
    (hs : env.sendOk f = true) (he : env.encFail f = false) :
    runLoop env f (n + 1) file =
      ⟨(runLoop env (f + 1) n (file ++ (env.packets f).flatten)).fFinal,
       (runLoop env (f + 1) n (file ++ (env.packets f).flatten)).file,
       env.source (warmupCount + f) ::
         (runLoop env (f + 1) n (file ++ (env.packets f).flatten)).submitted,
       1 + (runLoop env (f + 1) n (file ++ (env.packets f).flatten)).drained,
       drainPolls (env.packets f) +
         (runLoop env (f + 1) n (file ++ (env.packets f).flatten)).polls⟩ := by
  simp [runLoop, hs, drainLoop_eq, he]

/-- The loop counter reaches `f + n` (i.e. `f == frames` holds at exit)
exactly when every one of the `n` iterations submits successfully and
drains without an encode failure. -/
theorem runLoop_fFinal_iff (env : Env) (n : Nat) :
    ∀ f file, (runLoop env f n file).fFinal = f + n ↔
      ∀ i, i < n → env.sendOk (f + i) = true ∧ env.encFail (f + i) = false := by
  induction n with
  | zero =>
    intro f file
    simp [runLoop_zero]
  | succ n ih =>
    intro f file
    cases hs : env.sendOk f with
    | false =>
      rw [runLoop_succ_sendFail env f n file hs]
      show f = f + (n + 1) ↔ _
      constructor
      · intro h
        exact absurd h (by omega)
      · intro h
        have h0 := (h 0 (by omega)).1
        rw [Nat.add_zero, hs] at h0
        exact absurd h0 (by simp)
    | true =>
      cases he : env.encFail f with
      | true =>
        rw [runLoop_succ_encFail env f n file hs he]
        show f = f + (n + 1) ↔ _
        constructor
        · intro h
          exact absurd h (by omega)
        · intro h
          have h0 := (h 0 (by omega)).2
          rw [Nat.add_zero, he] at h0
          exact absurd h0 (by simp)
      | false =>
        rw [runLoop_succ_ok env f n file hs he]
        show (runLoop env (f + 1) n (file ++ (env.packets f).flatten)).fFinal
            = f + (n + 1) ↔ _
        have key := ih (f + 1) (file ++ (env.packets f).flatten)
        constructor
        · intro hfin i hi
          have hfin' : (runLoop env (f + 1) n (file ++ (env.packets f).flatten)).fFinal
              = (f + 1) + n := by omega
          cases i with
          | zero => exact ⟨by rwa [Nat.add_zero], by rwa [Nat.add_zero]⟩
          | succ j =>
            have := key.mp hfin' j (by omega)
            rwa [show f + 1 + j = f + (j + 1) by omega] at this
        · intro h
          have : (runLoop env (f + 1) n (file ++ (env.packets f).flatten)).fFinal
              = (f + 1) + n := by
            refine key.mpr fun i hi => ?_
            have := h (i + 1) (by omega)
            rwa [show f + (i + 1) = f + 1 + i by omega] at this
          omega

/-- Full characterisation of the loop when every iteration succeeds:
the counter reaches `f + n`, the drain sessions' packets are appended
in session order, the submitted frames are the source frames pulled
after the warm-up, every session is drained, and each session polls
`drainPolls` many times. -/
theorem runLoop_ok_eq (env : Env) (n : Nat) :
    ∀ f file,
      (∀ i, i < n → env.sendOk (f + i) = true ∧ env.encFail (f + i) = false) →
      runLoop env f n file =
        ⟨f + n,
         file ++ ((List.range' f n).flatMap env.packets).flatten,
         (List.range' (warmupCount + f) n).map env.source,
         n,
         ((List.range' f n).map fun i => drainPolls (env.packets i)).sum⟩ := by
  induction n with
  | zero =>
    intro f file h
    simp [runLoop_zero]
  | succ n ih =>
    intro f file h
    have h0 := h 0 (by omega)
    rw [Nat.add_zero] at h0
    rw [runLoop_succ_ok env f n file h0.1 h0.2]
    rw [ih (f + 1) (file ++ (env.packets f).flatten)
      (fun i hi => by
        have := h (i + 1) (by omega)
        rwa [show f + (i + 1) = f + 1 + i by omega] at this)]
    simp [List.range'_succ, LoopOut.mk.injEq, List.append_assoc]
    exact ⟨by omega, by rw [Nat.add_assoc], by omega⟩

/-- The file after the loop is the initial file followed by the bytes of
the packets of exactly the drained sessions, in session order. -/
theorem runLoop_file (env : Env) (n : Nat) :
    ∀ f file, (runLoop env f n file).file =
      file ++
        ((List.range' f (runLoop env f n file).drained).flatMap env.packets).flatten := by
  induction n with
  | zero =>
    intro f file
    simp [runLoop_zero]
  | succ n ih =>
    intro f file
    cases hs : env.sendOk f with
    | false =>
      rw [runLoop_succ_sendFail env f n file hs]
      simp
    | true =>
      cases he : env.encFail f with
      | true =>
        rw [runLoop_succ_encFail env f n file hs he]
        simp [List.range'_one]
      | false =>
        rw [runLoop_succ_ok env f n file hs he]
        show (runLoop env (f + 1) n (file ++ (env.packets f).flatten)).file
            = file ++ ((List.range' f
                (1 + (runLoop env (f + 1) n (file ++ (env.packets f).flatten)).drained)).flatMap
                env.packets).flatten
        rw [ih (f + 1) (file ++ (env.packets f).flatten)]
        rw [show 1 + (runLoop env (f + 1) n (file ++ (env.packets f).flatten)).drained
            = (runLoop env (f + 1) n (file ++ (env.packets f).flatten)).drained + 1 by omega]
        rw [List.range'_succ]
        simp [List.append_assoc]

/-- The frames submitted by the loop are exactly the source frames at
the consecutive pull indices following the warm-up pulls. -/
theorem runLoop_submitted (env : Env) (n : Nat) :
    ∀ f file, (runLoop env f n file).submitted =
      (List.range' (warmupCount + f)
        (runLoop env f n file).submitted.length).map env.source := by
  induction n with
  | zero =>
    intro f file
    simp [runLoop_zero]
  | succ n ih =>
    intro f file
    cases hs : env.sendOk f with
    | false =>
      rw [runLoop_succ_sendFail env f n file hs]
      simp [List.range'_one]
    | true =>
      cases he : env.encFail f with
      | true =>
        rw [runLoop_succ_encFail env f n file hs he]
        simp [List.range'_one]
      | false =>
        rw [runLoop_succ_ok env f n file hs he]
        show env.source (warmupCount + f) ::
              (runLoop env (f + 1) n (file ++ (env.packets f).flatten)).submitted
            = (List.range' (warmupCount + f)
                (env.source (warmupCount + f) ::
                  (runLoop env (f + 1) n (file ++ (env.packets f).flatten)).submitted).length).map
                env.source
        rw [List.length_cons, List.range'_succ, List.map_cons]
        congr 1
        have := ih (f + 1) (file ++ (env.packets f).flatten)
        rwa [show warmupCount + (f + 1) = warmupCount + f + 1 by omega] at this

/-- The loop never performs more submission attempts than it has
iterations available. -/
theorem runLoop_submitted_length_le (env : Env) (n : Nat) :
    ∀ f file, (runLoop env f n file).submitted.length ≤ n := by
  induction n with
  | zero =>
    intro f file
    simp [runLoop_zero]
  | succ n ih =>
    intro f file
    cases hs : env.sendOk f with
    | false =>
      rw [runLoop_succ_sendFail env f n file hs]
      simp
    | true =>
      cases he : env.encFail f with
      | true =>
        rw [runLoop_succ_encFail env f n file hs he]
        simp
      | false =>
        rw [runLoop_succ_ok env f n file hs he]
        show (env.source (warmupCount + f) ::
            (runLoop env (f + 1) n (file ++ (env.packets f).flatten)).submitted).length ≤ n + 1
        rw [List.length_cons]
        have := ih (f + 1) (file ++ (env.packets f).flatten)
        omega

/-- If the first `j` iterations succeed and the submission of iteration
`j` (0-indexed) fails, the loop stops with exactly `j + 1` submission
attempts and the counter stuck at `f + j`. -/
theorem runLoop_sendFail (env : Env) (j : Nat) :
    ∀ n f file,
      (∀ i, i < j → env.sendOk (f + i) = true ∧ env.encFail (f + i) = false) →
      j < n → env.sendOk (f + j) = false →
      (runLoop env f n file).submitted.length = j + 1 ∧
        (runLoop env f n file).fFinal = f + j := by
  induction j with
  | zero =>
    intro n f file hok hj hfail
    obtain ⟨m, rfl⟩ : ∃ m, n = m + 1 := ⟨n - 1, by omega⟩
    rw [Nat.add_zero] at hfail
    rw [runLoop_succ_sendFail env f m file hfail]
    simp
  | succ j ih =>
    intro n f file hok hj hfail
    obtain ⟨m, rfl⟩ : ∃ m, n = m + 1 := ⟨n - 1, by omega⟩
    have h0 := hok 0 (by omega)
    rw [Nat.add_zero] at h0
    rw [runLoop_succ_ok env f m file h0.1 h0.2]
    have key := ih m (f + 1) (file ++ (env.packets f).flatten)
      (fun i hi => by
        have := hok (i + 1) (by omega)
        rwa [show f + (i + 1) = f + 1 + i by omega] at this)
      (by omega)
      (by rwa [show f + 1 + j = f + (j + 1) by omega])
    constructor
    · show (env.source (warmupCount + f) ::
          (runLoop env (f + 1) m (file ++ (env.packets f).flatten)).submitted).length = j + 1 + 1
      rw [List.length_cons, key.1]
    · show (runLoop env (f + 1) m (file ++ (env.packets f).flatten)).fFinal = f + (j + 1)
      rw [key.2]
      omega

/-- The loop only looks at the per-cycle behaviour and the camera:
changing the flush-stage behaviour of the encoder does not change it. -/
theorem runLoop_congr (env env' : Env) (hs : env'.sendOk = env.sendOk)
    (hp : env'.packets = env.packets) (he : env'.encFail = env.encFail)
    (hsrc : env'.source = env.source) (n : Nat) :
    ∀ f file, runLoop env' f n file = runLoop env f n file := by
  induction n with
  | zero =>
    intro f file
    rfl
  | succ n ih =>
    intro f file
    cases hb : env.sendOk f with
    | false =>
      rw [runLoop_succ_sendFail env f n file hb,
        runLoop_succ_sendFail env' f n file (by rw [hs]; exact hb), hsrc]
    | true =>
      cases hc : env.encFail f with
      | true =>
        rw [runLoop_succ_encFail env f n file hb hc,
          runLoop_succ_encFail env' f n file (by rw [hs]; exact hb)
            (by rw [he]; exact hc), hsrc, hp]
      | false =>
        rw [runLoop_succ_ok env f n file hb hc,
          runLoop_succ_ok env' f n file (by rw [hs]; exact hb)
            (by rw [he]; exact hc), hsrc, hp, ih]

/-! ### Concrete encoder oracles used by the witnesses -/

/-- An encoder oracle on which every submission and every drain session
succeeds; two packets are buffered at flush. -/
def envOkW : Env :=
  { sendOk := fun _ => true
    packets := fun i => [[i, i + 7]]
    encFail := fun _ => false
    flushSendOk := true
    flushPackets := [[3], [4]]
    flushFail := false
    source := fun i => i }

/-- Same per-cycle behaviour as `envOkW`, but the whole flush stage
fails: the NULL submission is rejected, nothing is drained, and the
final drain reports an encode failure. -/
def envFlushFailW : Env :=
  { envOkW with flushSendOk := false, flushPackets := [], flushFail := true }

/-- A test-double encoder with exactly three packets ready after its
one submission and nothing buffered at flush. -/
def env3W : Env :=
  { sendOk := fun _ => true
    packets := fun _ => [[11], [22], [33]]
    encFail := fun _ => false
    flushSendOk := true
    flushPackets := []
    flushFail := false
    source := fun i => i }

/-! ### The claims -/

/-- C1: `run` returns `success = true` exactly when all `target_count`
submit cycles completed without a submission or encode failure, and two
encoders that agree on the per-frame-cycle behaviour and the camera —
differing only in the flush stage (the NULL-frame submission result and
the final drain) — produce the same success flag. -/
theorem claim_C1 (env env' : Env) (n : Nat)
    (hs : env'.sendOk = env.sendOk) (hp : env'.packets = env.packets)
    (he : env'.encFail = env.encFail) (hsrc : env'.source = env.source) :
    ((run env (n : Int)).success = true ↔
      ∀ i, i < n → env.sendOk i = true ∧ env.encFail i = false) ∧
    (run env' (n : Int)).success = (run env (n : Int)).success := by
  have htn : ((n : Int)).toNat = n := Int.toNat_natCast n
  have hmain := runLoop_fFinal_iff env n 0 []
  simp only [Nat.zero_add] at hmain
  constructor
  · simp only [run, htn, decide_eq_true_eq, Nat.cast_inj]
    exact hmain
  · simp only [run, htn]
    rw [runLoop_congr env env' hs hp he hsrc n]

/-- C1 witness: a run with an all-successful encoder succeeds, and the
flush stage failing wholesale does not change the returned flag. -/
theorem claim_C1_witness :
    (run envFlushFailW ((2 : Nat) : Int)).success
        = (run envOkW ((2 : Nat) : Int)).success ∧
    (run envOkW ((2 : Nat) : Int)).success = true :=
  ⟨(claim_C1 envOkW envFlushFailW 2 rfl rfl rfl rfl).2,
   (claim_C1 envOkW envFlushFailW 2 rfl rfl rfl rfl).1.mpr (by decide)⟩

/-- C2: however the per-frame loop ended, the flush stage still executes:
the end-of-stream NULL frame is submitted and the packets of the flush
drain are appended to the sink after the loop's bytes. -/
theorem claim_C2 (env : Env) (t : Int) :
    (run env t).eosSent = true ∧
    (run env t).file = (runLoop env 0 t.toNat []).file ++ env.flushPackets.flatten := by
  refine ⟨rfl, ?_⟩
  simp only [run, drainLoop_eq]

/-- C3: the byte stream in the sink is exactly the concatenation, in
emission order, of the packets the encoder emitted: the packets of the
completed drain sessions in cycle order, followed by the flush drain's
packets — no reordering and no interleaving across cycles. -/
theorem claim_C3 (env : Env) (t : Int) :
    (run env t).file =
      ((List.range (run env t).drained).flatMap env.packets
        ++ env.flushPackets).flatten := by
  simp only [run, drainLoop_eq]
  rw [runLoop_file env t.toNat 0 []]
  simp [List.range_eq_range', List.flatten_append]

/-- C4: with every cycle successful, each of the `n` submissions is
followed by a drain session performing one poll per ready packet plus
one final poll observing "no packet ready" before the next submission,
and every packet the encoder emitted reaches the file. -/
theorem claim_C4 (env : Env) (n : Nat)
    (h : ∀ i, i < n → env.sendOk i = true ∧ env.encFail i = false) :
    (run env (n : Int)).polls =
      ((List.range n).map fun i => (env.packets i).length + 1).sum ∧
    (run env (n : Int)).file =
      ((List.range n).flatMap env.packets ++ env.flushPackets).flatten := by
  have htn : ((n : Int)).toNat = n := Int.toNat_natCast n
  have hok := runLoop_ok_eq env n 0 [] (by simpa using h)
  constructor
  · simp only [run, htn, hok]
    simp [drainPolls_eq, List.range_eq_range']
  · simp only [run, htn, hok, drainLoop_eq]
    simp [List.range_eq_range', List.flatten_append]

/-- C4 witness: the encoder with exactly three packets ready after its
single submission is polled four times (three packets plus the NULL
observation) and all three packets are written, not just the first. -/
theorem claim_C4_witness :
    (run env3W ((1 : Nat) : Int)).polls = 4 ∧
    (run env3W ((1 : Nat) : Int)).file = [11, 22, 33] := by
  have h := claim_C4 env3W 1 (by decide)
  exact ⟨by rw [h.1]; decide, by rw [h.2]; decide⟩

/-- An encoder oracle whose very first frame submission is rejected. -/
def envFail1W : Env :=
  { sendOk := fun _ => false
    packets := fun _ => []
    encFail := fun _ => false
    flushSendOk := true
    flushPackets := []
    flushFail := false
    source := fun i => i }

/-- A fake encoder whose 10th submission (index 9) is rejected and on
which everything else succeeds. -/
def env10W : Env :=
  { sendOk := fun i => decide (i < 9)
    packets := fun _ => []
    encFail := fun _ => false
    flushSendOk := true
    flushPackets := []
    flushFail := false
    source := fun i => i }

/-- C5 counterexample: with `target_count = N = 1` the first submission
fails, so `k = 1 ≤ N`; exactly one submission attempt occurs, and one is
not strictly fewer than `N = 1` — the claim's "strictly fewer than N"
bound is wrong at `k = N`. -/
theorem claim_C5_counterexample :
    envFail1W.sendOk 0 = false ∧
    (run envFail1W (1 : Int)).submitted.length = 1 ∧
    ¬((run envFail1W (1 : Int)).submitted.length < 1) := by
  decide

/-- C5 (amended): if the first `j` cycles succeed and the submission of
cycle `j` (the `(j+1)`-st attempt, `j < N`) fails, the loop performs
exactly `j + 1` submission attempts — so never more than `j + 1`, and
strictly fewer than `N` whenever `j + 1 < N` — pulls no further frames,
the flush still runs, and `run` returns `success = false`. -/
theorem claim_C5 (env : Env) (n j : Nat)
    (hok : ∀ i, i < j → env.sendOk i = true ∧ env.encFail i = false)
    (hj : j < n) (hfail : env.sendOk j = false) :
    (run env (n : Int)).submitted.length = j + 1 ∧
    (j + 1 < n → (run env (n : Int)).submitted.length < n) ∧
    (run env (n : Int)).eosSent = true ∧
    (run env (n : Int)).success = false := by
  have htn : ((n : Int)).toNat = n := Int.toNat_natCast n
  have key := runLoop_sendFail env j n 0 [] (by simpa using hok) hj (by simpa using hfail)
  simp only [Nat.zero_add] at key
  refine ⟨?_, ?_, rfl, ?_⟩
  · simp only [run, htn]
    exact key.1
  · intro hlt
    simp only [run, htn]
    rw [key.1]
    exact hlt
  · simp only [run, htn, decide_eq_false_iff_not]
    rw [key.2]
    intro hc
    omega

/-- C5 witness: the spec's scenario — the 10th of 30 requested
submissions fails: exactly 10 submissions occur (fewer than 30), flush
still runs, and the run reports failure. -/
theorem claim_C5_witness :
    (run env10W ((30 : Nat) : Int)).submitted.length = 10 ∧
    (run env10W ((30 : Nat) : Int)).submitted.length < 30 ∧
    (run env10W ((30 : Nat) : Int)).eosSent = true ∧
    (run env10W ((30 : Nat) : Int)).success = false := by
  have h := claim_C5 env10W 30 9 (by decide) (by decide) (by decide)
  exact ⟨h.1, h.2.1 (by omega), h.2.2.1, h.2.2.2⟩

/-- C6: with `target_count = 0` the loop body never executes — zero
submissions, zero drain sessions — the flush stage still runs once, and
(in particular when the flush drain reports no encode failure) `run`
returns `success = true`. -/
theorem claim_C6 (env : Env) (_h : env.flushFail = false) :
    (run env (0 : Int)).submitted = [] ∧
    (run env (0 : Int)).drained = 0 ∧
    (run env (0 : Int)).eosSent = true ∧
    (run env (0 : Int)).success = true := by
  exact ⟨rfl, rfl, rfl, rfl⟩

/-- C6 witness: the all-successful encoder at `target_count = 0`. -/
theorem claim_C6_witness :
    (run envOkW (0 : Int)).submitted = [] ∧
    (run envOkW (0 : Int)).success = true :=
  ⟨(claim_C6 envOkW rfl).1, (claim_C6 envOkW rfl).2.2.2⟩

/-- A C `int` value whose exact value fits in 32 bits is represented
exactly by the two's-complement wrap. -/
theorem int32_eq_self (n : Int) (h0 : -(2 ^ 31) ≤ n) (h1 : n < 2 ^ 31) :
    int32 n = n := by
  have e31 : (2 : Int) ^ 31 = 2147483648 := by norm_num
  have e32 : (2 : Int) ^ 32 = 4294967296 := by norm_num
  unfold int32
  rw [e31, e32]
  rw [e31] at h0 h1
  rw [Int.emod_eq_of_lt (by omega) (by omega)]
  omega

/-- C7 counterexample: `seconds = -1`, `framerate = 30` are valid user
inputs; the computed frame target is `-30` and the pump attempts zero
frame-submit cycles, which differs from the exact product `-1 * 30`. -/
theorem claim_C7_counterexample :
    framesOf (-1) 30 = -30 ∧
    (run envOkW (framesOf (-1) 30)).submitted.length = 0 ∧
    ¬(((run envOkW (framesOf (-1) 30)).submitted.length : Int) = (-1) * 30) := by
  decide

/-- C7 (amended): `frames` is the C `int` product `seconds * framerate`
(32-bit two's-complement); whenever the exact product is nonnegative and
representable in `int` it is computed exactly, and with an encoder that
never fails the pump attempts exactly that many frame-submit cycles; in
particular `seconds = 1`, `framerate = 30` gives `target_count = 30`. -/
theorem claim_C7 (s fr : Int) (h0 : 0 ≤ s * fr) (h1 : s * fr < 2 ^ 31) :
    framesOf s fr = s * fr ∧
    ∀ env : Env, (∀ i, env.sendOk i = true ∧ env.encFail i = false) →
      ((run env (framesOf s fr)).submitted.length : Int) = s * fr := by
  have hexact : framesOf s fr = s * fr :=
    int32_eq_self (s * fr) (le_trans (by norm_num) h0) h1
  refine ⟨hexact, fun env hok => ?_⟩
  rw [hexact]
  have hm := runLoop_ok_eq env ((s * fr).toNat) 0 []
    (fun i _ => by simpa using hok i)
  simp only [run, hm]
  simp only [List.length_map, List.length_range']
  exact Int.toNat_of_nonneg h0

/-- C7 witness: `seconds = 1`, `framerate = 30` gives exactly 30
attempted frame-submit cycles. -/
theorem claim_C7_witness :
    framesOf 1 30 = 1 * 30 ∧
    ((run envOkW (framesOf 1 30)).submitted.length : Int) = 1 * 30 := by
  have h := claim_C7 1 30 (by norm_num) (by norm_num)
  exact ⟨h.1, h.2 envOkW (fun i => ⟨rfl, rfl⟩)⟩

/-- The `input_args` used by the `main` and negative-duration witnesses:
`./program 640 360 30 -1 out.hevc`. -/
def inputW : InputArgs :=
  { width := 640, height := 360, framerate := 30, seconds := -1 }

/-- The `input_args` of a fully successful run:
`./program 640 360 30 1 out.hevc`. -/
def inputOkW : InputArgs :=
  { width := 640, height := 360, framerate := 30, seconds := 1 }

/-- C8: the three pre-loop failures exit with the pairwise distinct
non-zero codes 1 (invalid arguments), 2 (unopenable output file) and
3 (`hve_init` failure); once the run loop is reached the process exits
with 0 whatever `main_loop` returned — in particular also when it
reported `success = false`. -/
theorem claim_C8 (sys : SysEnv) (env : Env) (input : InputArgs) :
    (sys.argc < 6 → main sys env input = 1) ∧
    (6 ≤ sys.argc → sys.fileOpens = false → main sys env input = 2) ∧
    (6 ≤ sys.argc → sys.fileOpens = true → sys.encoderInits = false →
      main sys env input = 3) ∧
    (6 ≤ sys.argc → sys.fileOpens = true → sys.encoderInits = true →
      main sys env input = 0) ∧
    (6 ≤ sys.argc → sys.fileOpens = true → sys.encoderInits = true →
      (main_loop env input).success = false → main sys env input = 0) ∧
    ((1 : Int) ≠ 0 ∧ (2 : Int) ≠ 0 ∧ (3 : Int) ≠ 0 ∧
      (1 : Int) ≠ 2 ∧ (1 : Int) ≠ 3 ∧ (2 : Int) ≠ 3) := by
  refine ⟨fun h => ?_, fun h hf => ?_, fun h hf henc => ?_,
    fun h hf henc => ?_, fun h hf henc _ => ?_, by norm_num⟩
  · simp [main, process_user_input, h]
  · have h6 : ¬sys.argc < 6 := by omega
    simp [main, process_user_input, h6, hf]
  · have h6 : ¬sys.argc < 6 := by omega
    simp [main, process_user_input, h6, hf, henc]
  · have h6 : ¬sys.argc < 6 := by omega
    simp [main, process_user_input, h6, hf, henc]
  · have h6 : ¬sys.argc < 6 := by omega
    simp [main, process_user_input, h6, hf, henc]

/-- C8 witness: the four exit paths at concrete environments; the
zero-exit path is exercised both with a fully successful run
(`inputOkW`, `success = true`) and with a run whose loop failed
(`success = false` from the negative duration of `inputW`). -/
theorem claim_C8_witness :
    main ⟨2, true, true⟩ envOkW inputW = 1 ∧
    main ⟨6, false, true⟩ envOkW inputW = 2 ∧
    main ⟨6, true, false⟩ envOkW inputW = 3 ∧
    (main_loop envOkW inputOkW).success = true ∧
    main ⟨6, true, true⟩ envOkW inputOkW = 0 ∧
    (main_loop envOkW inputW).success = false ∧
    main ⟨6, true, true⟩ envOkW inputW = 0 := by
  have hs : (main_loop envOkW inputW).success = false := by decide
  have ht : (main_loop envOkW inputOkW).success = true := by decide
  exact ⟨(claim_C8 ⟨2, true, true⟩ envOkW inputW).1 (by decide),
    (claim_C8 ⟨6, false, true⟩ envOkW inputW).2.1 (by decide) rfl,
    (claim_C8 ⟨6, true, false⟩ envOkW inputW).2.2.1 (by decide) rfl rfl,
    ht,
    (claim_C8 ⟨6, true, true⟩ envOkW inputOkW).2.2.2.1 (by decide) rfl rfl,
    hs,
    (claim_C8 ⟨6, true, true⟩ envOkW inputW).2.2.2.2.1 (by decide) rfl rfl hs⟩

/-- C9: the warm-up stage pulls and discards exactly 10 frames (the
hardcoded loop bound is 10, whatever the adjacent comment says): the
warm-up pulls are the first ten source frames, none of them reaches the
encoder, and the frames actually submitted are the consecutive source
frames starting at pull index 10. -/
theorem claim_C9 (env : Env) (t : Int) :
    warmupCount = 10 ∧
    (run env t).warmupPulled = (List.range 10).map env.source ∧
    (run env t).warmupPulled.length = 10 ∧
    (run env t).submitted =
      (List.range' 10 (run env t).submitted.length).map env.source := by
  refine ⟨rfl, rfl, by simp [run, warmupCount], ?_⟩
  simp only [run]
  have key := runLoop_submitted env t.toNat 0 []
  rw [Nat.add_zero] at key
  exact key

/-- C10: when the computed frame target is negative the loop body never
executes — nothing is submitted, no drain session runs — the flush stage
still runs (the file holds exactly the flush packets), and `run` returns
`success = false`, since the final counter 0 differs from the negative
target. -/
theorem claim_C10 (env : Env) (input : InputArgs)
    (h : framesOf input.seconds input.framerate < 0) :
    (main_loop env input).submitted = [] ∧
    (main_loop env input).drained = 0 ∧
    (main_loop env input).eosSent = true ∧
    (main_loop env input).file = env.flushPackets.flatten ∧
    (main_loop env input).success = false := by
  have ht : (framesOf input.seconds input.framerate).toNat = 0 := by omega
  refine ⟨?_, ?_, rfl, ?_, ?_⟩
  · simp [main_loop, run, ht, runLoop_zero]
  · simp [main_loop, run, ht, runLoop_zero]
  · simp [main_loop, run, ht, runLoop_zero, drainLoop_eq]
  · simp only [main_loop, run, ht, runLoop_zero, decide_eq_false_iff_not]
    intro hc
    omega

/-- C10 witness: `seconds = -1`, `framerate = 30` gives target `-30`;
no submission happens and the run reports failure. -/
theorem claim_C10_witness :
    (main_loop envOkW inputW).submitted = [] ∧
    (main_loop envOkW inputW).file = envOkW.flushPackets.flatten ∧
    (main_loop envOkW inputW).success = false := by
  have h := claim_C10 envOkW inputW (by decide)
  exact ⟨h.1, h.2.2.2.1, h.2.2.2.2⟩

end RSH264
